import Mathlib

/-!
Verification of the attribute-server repository (crates attribute-store and
attribute-server) against its natural-language specification.

The Rust data model and operations are shallowly embedded as Lean
definitions.  Rust HashMap values are modelled as Mathlib Finmap (equality
of a Finmap is extensional key/value equality, matching HashMap equality);
Rust i64 values are modelled as Int (overflow on the i64 range is not
reachable in any of the properties below); fallible Rust functions return
Except.

Sources: src/attribute-store/src/store.rs, src/attribute-store/src/inmemory.rs,
src/attribute-server/src/grpc.rs.  Definitions whose doc comment starts with
the words Modelled from the spec embed behaviour of the store engine whose
current implementation file is not part of the source snapshot (the snapshot
ships a stale revision of inmemory.rs that predates entity versions, change
events and the idempotence check; store.rs and grpc.rs are current); those
definitions follow spec.md sections 4.5 and 5.
-/

deriving instance DecidableEq for Except

namespace AttrStore

/-- store.rs: symbols are strings (Symbol is a validated newtype over a
string; validity is checked separately by symbolTryFrom). -/
abbrev Symbol := String

/-- store.rs AttributeValue: tagged value with exactly three cases.
EntityId payloads are i64, modelled as Int. -/
inductive AttributeValue where
  | string (s : String)
  | entityId (id : Int)
  | bytes (bs : List Nat)
deriving DecidableEq

/-- Rust HashMap from Symbol to AttributeValue, modelled extensionally. -/
abbrev AttrMap := Finmap (fun _ : Symbol => AttributeValue)

/-- store.rs Entity: (EntityId, EntityVersion, attributes). -/
structure Entity where
  entity_id : Int
  entity_version : Int
  attributes : AttrMap
deriving DecidableEq

/-- store.rs ValueType. -/
inductive ValueType where
  | text
  | entityReference
  | bytes
deriving DecidableEq

/-- store.rs EntityLocator. -/
inductive EntityLocator where
  | entityId (id : Int)
  | symbol (s : Symbol)
deriving DecidableEq

/-- store.rs AttributeToUpdate: a symbol together with an optional value
(a present value writes, an absent value removes the key). -/
structure AttributeToUpdate where
  symbol : Symbol
  value : Option AttributeValue
deriving DecidableEq

/-- store.rs UpdateEntityRequest. -/
structure UpdateEntityRequest where
  entity_locator : EntityLocator
  attributes_to_update : List AttributeToUpdate
deriving DecidableEq

/-- store.rs AttributeType: input of create_attribute_type. -/
structure AttributeType where
  symbol : Symbol
  value_type : ValueType
deriving DecidableEq

/-- store.rs AttributeStoreErrorKind.  The garde validation report is
modelled as the list of violation messages. -/
inductive AttributeStoreErrorKind where
  | invalidSymbolName (s : String)
  | entityNotFound (loc : EntityLocator)
  | attributeTypeAlreadyExists (e : Entity)
  | invalidValueType (id : Int)
  | validationError (report : List String)
  | updateNotIdempotent (missing_attribute_to_update : AttributeToUpdate)
      (entity_locator : EntityLocator)
  | other (message : String)
deriving DecidableEq

/-- The bootstrap symbol @id (store.rs BootstrapSymbol::EntityId). -/
def entityIdSymbol : Symbol := "@id"

/-- The bootstrap symbol @symbolName (store.rs BootstrapSymbol::SymbolName). -/
def symbolNameSymbol : Symbol := "@symbolName"

/-- The bootstrap symbol @valueType (store.rs BootstrapSymbol::ValueType). -/
def valueTypeSymbol : Symbol := "@valueType"

/-- store.rs From ValueType for EntityId: canonical entity ids 3, 4, 5. -/
def ValueType.toEntityId : ValueType → Int
  | .text => 3
  | .entityReference => 4
  | .bytes => 5

/-- store.rs TryFrom EntityId for ValueType, with the error dropped
(inmemory.rs uses try_from(...).ok() in the bootstrap scan). -/
def valueTypeFromEntityId : Int → Option ValueType
  | 3 => some .text
  | 4 => some .entityReference
  | 5 => some .bytes
  | _ => none

/-- A character of the POSIX print class used by the Rust regex
(ASCII 0x20 to 0x7E). -/
def charIsAsciiPrintable (c : Char) : Bool :=
  0x20 ≤ c.toNat && c.toNat ≤ 0x7E

/-- store.rs SYMBOL_REGEX: anchored match of 1 to 60 characters from the
print class minus backslash and double quote. -/
def symbolRegexMatches (s : String) : Bool :=
  1 ≤ s.length && s.length ≤ 60 &&
    s.data.all (fun c => charIsAsciiPrintable c && c ≠ '\\' && c ≠ '\"')

/-- store.rs TryFrom a string for Symbol. -/
def symbolTryFrom (s : String) : Except AttributeStoreErrorKind Symbol :=
  if symbolRegexMatches s then .ok s
  else .error (.invalidSymbolName s)

/-- store.rs EntityQueryNode: the five query-tree variants. -/
inductive EntityQueryNode where
  | matchAll
  | matchNone
  | and (clauses : List EntityQueryNode)
  | or (clauses : List EntityQueryNode)
  | hasAttributeTypes (attribute_types : List Symbol)

mutual

/-- store.rs EntityQueryNode::matches: pure evaluation of a query node
against an entity.  The iterator combinators all and any over the clause
list are embedded as the mutually recursive list folds below, which
short-circuit exactly as the Rust iterators do. -/
def EntityQueryNode.matches : EntityQueryNode → Entity → Bool
  | .matchAll, _ => true
  | .matchNone, _ => false
  | .and clauses, entity => matchesAllClauses clauses entity
  | .or clauses, entity => matchesAnyClause clauses entity
  | .hasAttributeTypes ats, entity =>
      ats.all (fun a => (entity.attributes.lookup a).isSome)

/-- Iterator::all over the clauses of an And node. -/
def matchesAllClauses : List EntityQueryNode → Entity → Bool
  | [], _ => true
  | n :: rest, entity => n.matches entity && matchesAllClauses rest entity

/-- Iterator::any over the clauses of an Or node. -/
def matchesAnyClause : List EntityQueryNode → Entity → Bool
  | [], _ => false
  | n :: rest, entity => n.matches entity || matchesAnyClause rest entity

end

/-- store.rs EntityRow: ordered optional attribute values. -/
structure EntityRow where
  values : List (Option AttributeValue)
deriving DecidableEq

/-- store.rs Entity::to_entity_row: project an entity through an ordered
list of symbols; the @id position is synthesized from the entity id. -/
def Entity.toEntityRow (e : Entity) (attribute_types : List Symbol) : EntityRow :=
  ⟨attribute_types.map (fun a =>
    if a = entityIdSymbol then some (.entityId e.entity_id)
    else e.attributes.lookup a)⟩

/-- store.rs From BootstrapSymbol for Entity, applied to the six bootstrap
symbols (inmemory.rs bootstrap_entities), entity 0: @id. -/
def bootstrapEntity0 : Entity :=
  ⟨0, 0, ((∅ : AttrMap).insert symbolNameSymbol (.string "@id")).insert
      valueTypeSymbol (.entityId 4)⟩

/-- Bootstrap entity 1: @symbolName. -/
def bootstrapEntity1 : Entity :=
  ⟨1, 0, ((∅ : AttrMap).insert symbolNameSymbol (.string "@symbolName")).insert
      valueTypeSymbol (.entityId 3)⟩

/-- Bootstrap entity 2: @valueType. -/
def bootstrapEntity2 : Entity :=
  ⟨2, 0, ((∅ : AttrMap).insert symbolNameSymbol (.string "@valueType")).insert
      valueTypeSymbol (.entityId 4)⟩

/-- Bootstrap entity 3: @valueType/text. -/
def bootstrapEntity3 : Entity :=
  ⟨3, 0, (∅ : AttrMap).insert symbolNameSymbol (.string "@valueType/text")⟩

/-- Bootstrap entity 4: @valueType/entityRef. -/
def bootstrapEntity4 : Entity :=
  ⟨4, 0, (∅ : AttrMap).insert symbolNameSymbol (.string "@valueType/entityRef")⟩

/-- Bootstrap entity 5: @valueType/bytes. -/
def bootstrapEntity5 : Entity :=
  ⟨5, 0, (∅ : AttrMap).insert symbolNameSymbol (.string "@valueType/bytes")⟩

/-- inmemory.rs bootstrap_entities: the six seed entities. -/
def bootstrapEntities : List Entity :=
  [bootstrapEntity0, bootstrapEntity1, bootstrapEntity2,
   bootstrapEntity3, bootstrapEntity4, bootstrapEntity5]

/-- inmemory.rs InMemoryAttributeStore::new: derive the schema registry by
scanning each seed entity with a @symbolName/@valueType pair. -/
def bootstrapRegistry : Finmap (fun _ : Symbol => ValueType) :=
  (bootstrapEntities.filterMap (fun e =>
    match e.attributes.lookup symbolNameSymbol,
        e.attributes.lookup valueTypeSymbol with
    | some (.string name), some (.entityId vt) =>
        match (symbolTryFrom name).toOption, valueTypeFromEntityId vt with
        | some key, some value => some (key, value)
        | _, _ => none
    | _, _ => none)).foldl (fun m p => m.insert p.1 p.2) ∅

/-- inmemory.rs InMemoryAttributeStore state, with the global version
sequence.  The version field is Modelled from the spec (section 3,
EntityVersion): a single per-store sequence whose current value is the
snapshot watermark; a fresh version is the successor of the current one. -/
structure Store where
  attribute_types : Finmap (fun _ : Symbol => ValueType)
  entities : List Entity
  version : Int
deriving DecidableEq

/-- The store produced by InMemoryAttributeStore::new. -/
def initialStore : Store :=
  ⟨bootstrapRegistry, bootstrapEntities, 0⟩

/-- store.rs WatchEntitiesEvent: a versioned before/after change event. -/
structure WatchEntitiesEvent where
  entity_version : Int
  before : Option Entity
  after : Option Entity
deriving DecidableEq

/-- store.rs TryFrom EntityId for usize: a negative database id fails with
EntityNotFound naming the EntityId locator. -/
def entityIdToIndex (id : Int) : Except AttributeStoreErrorKind Nat :=
  if 0 ≤ id then .ok id.toNat
  else .error (.entityNotFound (.entityId id))

/-- The predicate used by the symbol-locator scans in inmemory.rs: the
entity has the given text as its @symbolName attribute. -/
def hasSymbolName (s : Symbol) (e : Entity) : Bool :=
  e.attributes.lookup symbolNameSymbol = some (.string s)

/-- Linear scan returning the position and value of the first entity
satisfying the predicate (iter().find / position combined). -/
def findEntityIdx (entities : List Entity) (p : Entity → Bool) :
    Option (Nat × Entity) :=
  match entities with
  | [] => none
  | e :: rest =>
      if p e then some (0, e)
      else (findEntityIdx rest p).map (fun q => (q.1 + 1, q.2))

/-- inmemory.rs get_entity: fetch by index for an EntityId locator, linear
scan on @symbolName for a Symbol locator; EntityNotFound otherwise. -/
def getEntity (store : Store) (loc : EntityLocator) :
    Except AttributeStoreErrorKind Entity :=
  match loc with
  | .entityId id =>
      match entityIdToIndex id with
      | .error e => .error e
      | .ok idx =>
          match store.entities[idx]? with
          | some e => .ok e
          | none => .error (.entityNotFound loc)
  | .symbol s =>
      match findEntityIdx store.entities (hasSymbolName s) with
      | some q => .ok q.2
      | none => .error (.entityNotFound loc)

/-- store.rs attribute_value_matches_attribute_type: the value tag must
agree with the registered value type. -/
def valueMatchesType : AttributeValue → ValueType → Bool
  | .string _, .text => true
  | .entityId _, .entityReference => true
  | .bytes _, .bytes => true
  | _, _ => false

/-- The garde validation rules attached to store.rs AttributeToUpdate
(is_known_attribute_type, not_immutable_attribute_type,
attribute_value_matches_attribute_type), producing the violation messages
for one attribute-to-update. -/
def validateAttributeToUpdate (registry : Finmap (fun _ : Symbol => ValueType))
    (a : AttributeToUpdate) : List String :=
  (if (registry.lookup a.symbol).isSome then []
   else ["unregistered attribute type"]) ++
  (if a.symbol = valueTypeSymbol then ["immutable attribute type"] else []) ++
  (match a.value with
   | none => []
   | some v =>
       match registry.lookup a.symbol with
       | none => ["cannot find value type for attribute type"]
       | some vt =>
           if valueMatchesType v vt then [] else ["incorrect value type"])

/-- The garde validation report of a whole store.rs UpdateEntityRequest
(garde dive over attributes_to_update); field paths are dropped, keeping
the violation messages. -/
def validateUpdateEntityRequest (registry : Finmap (fun _ : Symbol => ValueType))
    (r : UpdateEntityRequest) : List String :=
  r.attributes_to_update.flatMap (validateAttributeToUpdate registry)

/-- One attribute-to-update applied to an attribute map: a present value
inserts, an absent value removes (spec section 4.5, update_entity). -/
def applyAttributeToUpdate (m : AttrMap) (a : AttributeToUpdate) : AttrMap :=
  match a.value with
  | none => m.erase a.symbol
  | some v => m.insert a.symbol v

/-- The whole attributes_to_update list applied in order. -/
def applyAttributesToUpdate (m : AttrMap) (us : List AttributeToUpdate) : AttrMap :=
  us.foldl applyAttributeToUpdate m

/-- inmemory.rs insert_new_entity_with_attributes input: collect the
non-null entries of the request into a fresh attribute map (filter_map
over attributes_to_update collected into a HashMap; a later entry for the
same symbol overwrites an earlier one). -/
def collectNonNullAttributes (us : List AttributeToUpdate) : AttrMap :=
  (us.filterMap (fun a => a.value.map (fun v => (a.symbol, v)))).foldl
    (fun m p => m.insert p.1 p.2) ∅

/-- Result of a state-changing store operation: the returned entity, the
new store state, and the change events published to the broadcaster. -/
structure UpdateOutcome where
  entity : Entity
  store : Store
  events : List WatchEntitiesEvent
deriving DecidableEq

/-- Modelled from the spec (section 4.5, update_entity, locator
resolution): EntityId resolves by index, Symbol by scan on @symbolName;
returns the position and the resolved entity. -/
def resolveForUpdate (entities : List Entity) :
    EntityLocator → Option (Nat × Entity)
  | .entityId id =>
      match entityIdToIndex id with
      | .error _ => none
      | .ok idx => (entities[idx]?).map (fun e => (idx, e))
  | .symbol s => findEntityIdx entities (hasSymbolName s)

/-- Modelled from the spec (section 4.5, update_entity): apply the diff to
a resolved entity; if nothing changed, return it with no version bump and
no event, otherwise stamp a fresh version and emit a Modified event
carrying the before and after snapshots. -/
def applyUpdatesToEntity (store : Store) (us : List AttributeToUpdate)
    (idx : Nat) (e : Entity) : UpdateOutcome :=
  let newAttrs := applyAttributesToUpdate e.attributes us
  if newAttrs = e.attributes then ⟨e, store, []⟩
  else
    let v := store.version + 1
    let e2 : Entity := ⟨e.entity_id, v, newAttrs⟩
    ⟨e2, ⟨store.attribute_types, store.entities.set idx e2, v⟩,
      [⟨v, some e, some e2⟩]⟩

/-- Modelled from the spec (section 4.5, update_entity): create a new
entity at the next EntityId from the non-null entries of the request and
emit an Added event at a freshly allocated version. -/
def createEntityFromRequest (store : Store) (us : List AttributeToUpdate) :
    UpdateOutcome :=
  let v := store.version + 1
  let e : Entity := ⟨(store.entities.length : Int), v, collectNonNullAttributes us⟩
  ⟨e, ⟨store.attribute_types, store.entities ++ [e], v⟩, [⟨v, none, some e⟩]⟩

/-- Modelled from the spec (section 4.5, update_entity; the current
implementation of the store engine is absent from the source snapshot):
validate, resolve the locator, then either apply the diff, fail with
EntityNotFound (EntityId locator), create (Symbol locator whose request
writes the symbol), or fail with UpdateNotIdempotent naming the missing
attribute-to-update. -/
def updateEntity (store : Store) (r : UpdateEntityRequest) :
    Except AttributeStoreErrorKind UpdateOutcome :=
  if validateUpdateEntityRequest store.attribute_types r = [] then
    match resolveForUpdate store.entities r.entity_locator with
    | some q => .ok (applyUpdatesToEntity store r.attributes_to_update q.1 q.2)
    | none =>
        match r.entity_locator with
        | .entityId id => .error (.entityNotFound (.entityId id))
        | .symbol s =>
            if (⟨symbolNameSymbol, some (.string s)⟩ : AttributeToUpdate)
                ∈ r.attributes_to_update then
              .ok (createEntityFromRequest store r.attributes_to_update)
            else
              .error (.updateNotIdempotent
                ⟨symbolNameSymbol, some (.string s)⟩ (.symbol s))
  else .error (.validationError (validateUpdateEntityRequest store.attribute_types r))

/-- The entity appended by a successful create_attribute_type: the next
EntityId, a fresh version, and exactly the @symbolName/@valueType pair. -/
def createdAttributeTypeEntity (store : Store) (at_ : AttributeType) : Entity :=
  ⟨(store.entities.length : Int), store.version + 1,
    ((∅ : AttrMap).insert symbolNameSymbol (.string at_.symbol)).insert
      valueTypeSymbol (.entityId at_.value_type.toEntityId)⟩

/-- The outcome of a successful create_attribute_type: the new entity is
appended, the symbol registered, and one Added event emitted. -/
def createAttributeTypeOutcome (store : Store) (at_ : AttributeType) :
    UpdateOutcome :=
  ⟨createdAttributeTypeEntity store at_,
    ⟨store.attribute_types.insert at_.symbol at_.value_type,
      store.entities ++ [createdAttributeTypeEntity store at_],
      store.version + 1⟩,
    [⟨store.version + 1, none, some (createdAttributeTypeEntity store at_)⟩]⟩

/-- inmemory.rs create_attribute_type (scan for an entity already carrying
the symbol as its @symbolName, else append a new entity with the
@symbolName/@valueType pair and register the type); the version stamp and
Added event are Modelled from the spec (section 4.5, create_attribute_type). -/
def createAttributeType (store : Store) (at_ : AttributeType) :
    Except AttributeStoreErrorKind UpdateOutcome :=
  match findEntityIdx store.entities (hasSymbolName at_.symbol) with
  | some q => .error (.attributeTypeAlreadyExists q.2)
  | none => .ok (createAttributeTypeOutcome store at_)

/-- grpc.rs filter_event: drop a live event whose version is below the
snapshot watermark (when one was taken), then filter each side of the
event through the query of the subscriber independently. -/
def filterEvent (ev : WatchEntitiesEvent) (q : EntityQueryNode)
    (minEntityVersion : Option Int) : Option WatchEntitiesEvent :=
  match minEntityVersion with
  | some m =>
      if ev.entity_version < m then none
      else some ⟨ev.entity_version, ev.before.filter (fun e => q.matches e),
        ev.after.filter (fun e => q.matches e)⟩
  | none =>
      some ⟨ev.entity_version, ev.before.filter (fun e => q.matches e),
        ev.after.filter (fun e => q.matches e)⟩

/-- grpc.rs watch_entities live pipeline for one event: filter_map through
filter_event, then suppress the derived event when its before and after
sides are equal. -/
def processLiveEvent (ev : WatchEntitiesEvent) (q : EntityQueryNode)
    (minEntityVersion : Option Int) : Option WatchEntitiesEvent :=
  match filterEvent ev q minEntityVersion with
  | none => none
  | some d => if d.before = d.after then none else some d

/-- The last entry of attributes_to_update whose symbol is k, as its
optional value (none when no entry mentions k). -/
def lastUpdateFor : List AttributeToUpdate → Symbol → Option (Option AttributeValue)
  | [], _ => none
  | u :: rest, k =>
      match lastUpdateFor rest k with
      | some v => some v
      | none => if u.symbol = k then some u.value else none

/-- The value written by the last non-null entry for k, unless a later
entry for k erases or no entry for k writes. -/
def lastNonNullValueFor : List AttributeToUpdate → Symbol → Option AttributeValue
  | [], _ => none
  | u :: rest, k =>
      match lastNonNullValueFor rest k with
      | some v => some v
      | none => if u.symbol = k then u.value else none

/-- The value of the last pair with key k in an association list. -/
def lastPairValueFor : List (Symbol × AttributeValue) → Symbol → Option AttributeValue
  | [], _ => none
  | p :: rest, k =>
      match lastPairValueFor rest k with
      | some v => some v
      | none => if p.1 = k then some p.2 else none

theorem lookup_applyAttributeToUpdate (m : AttrMap) (u : AttributeToUpdate)
    (k : Symbol) :
    (applyAttributeToUpdate m u).lookup k =
      if u.symbol = k then u.value else m.lookup k := by
  by_cases hk : u.symbol = k
  · subst hk
    cases hv : u.value with
    | none => simp [applyAttributeToUpdate, hv, Finmap.lookup_erase]
    | some v => simp [applyAttributeToUpdate, hv, Finmap.lookup_insert]
  · cases hv : u.value with
    | none =>
        simp only [applyAttributeToUpdate, hv, if_neg hk]
        exact Finmap.lookup_erase_ne (fun h => hk h.symm)
    | some v =>
        simp only [applyAttributeToUpdate, hv, if_neg hk]
        exact Finmap.lookup_insert_of_ne m (fun h => hk h.symm)

theorem lookup_applyAttributesToUpdate (us : List AttributeToUpdate)
    (m : AttrMap) (k : Symbol) :
    (applyAttributesToUpdate m us).lookup k =
      (lastUpdateFor us k).getD (m.lookup k) := by
  induction us generalizing m with
  | nil => rfl
  | cons u rest ih =>
      show (applyAttributesToUpdate (applyAttributeToUpdate m u) rest).lookup k = _
      rw [ih]
      cases hl : lastUpdateFor rest k with
      | some v => simp [lastUpdateFor, hl]
      | none =>
          simp only [lastUpdateFor, hl, lookup_applyAttributeToUpdate]
          by_cases hk : u.symbol = k
          · simp [hk]
          · simp [hk]

theorem applyAttributesToUpdate_idem (us : List AttributeToUpdate) (m : AttrMap) :
    applyAttributesToUpdate (applyAttributesToUpdate m us) us =
      applyAttributesToUpdate m us := by
  apply Finmap.ext_lookup
  intro k
  rw [lookup_applyAttributesToUpdate, lookup_applyAttributesToUpdate]
  cases hl : lastUpdateFor us k with
  | some v => simp
  | none => simp

theorem lookup_foldl_insert (ps : List (Symbol × AttributeValue))
    (m : AttrMap) (k : Symbol) :
    (ps.foldl (fun m p => m.insert p.1 p.2) m).lookup k =
      match lastPairValueFor ps k with
      | some v => some v
      | none => m.lookup k := by
  induction ps generalizing m with
  | nil => rfl
  | cons p rest ih =>
      show ((rest.foldl (fun m p => m.insert p.1 p.2) (m.insert p.1 p.2))).lookup k = _
      rw [ih]
      cases hl : lastPairValueFor rest k with
      | some v => simp [lastPairValueFor, hl]
      | none =>
          simp only [lastPairValueFor, hl]
          by_cases hk : p.1 = k
          · subst hk; simp [Finmap.lookup_insert]
          · simp only [if_neg hk]
            exact Finmap.lookup_insert_of_ne _ (fun h => hk h.symm)

theorem lastPairValueFor_filterMap (us : List AttributeToUpdate) (k : Symbol) :
    lastPairValueFor
        (us.filterMap (fun a => a.value.map (fun v => (a.symbol, v)))) k =
      lastNonNullValueFor us k := by
  induction us with
  | nil => rfl
  | cons u rest ih =>
      rw [List.filterMap_cons]
      cases hv : u.value with
      | none =>
          simp only [Option.map_none']
          rw [ih]
          simp only [lastNonNullValueFor]
          cases hl : lastNonNullValueFor rest k with
          | some v => simp
          | none => simp [hv]
      | some v =>
          simp only [Option.map_some']
          simp only [lastPairValueFor, lastNonNullValueFor, ih]
          cases hl : lastNonNullValueFor rest k with
          | some w => simp
          | none => simp [hv]

theorem lookup_collectNonNullAttributes (us : List AttributeToUpdate) (k : Symbol) :
    (collectNonNullAttributes us).lookup k = lastNonNullValueFor us k := by
  unfold collectNonNullAttributes
  rw [lookup_foldl_insert, lastPairValueFor_filterMap]
  cases hl : lastNonNullValueFor us k with
  | some v => simp
  | none => simp [Finmap.lookup_empty]

theorem lastUpdateFor_eq_none (us : List AttributeToUpdate) (k : Symbol)
    (h : ∀ a ∈ us, a.symbol ≠ k) : lastUpdateFor us k = none := by
  induction us with
  | nil => rfl
  | cons u rest ih =>
      simp only [lastUpdateFor, ih (fun a ha => h a (List.mem_cons_of_mem u ha))]
      simp [h u (List.mem_cons_self u rest)]

theorem lastNonNullValueFor_eq_none (us : List AttributeToUpdate) (k : Symbol)
    (h : ∀ a ∈ us, a.symbol ≠ k) : lastNonNullValueFor us k = none := by
  induction us with
  | nil => rfl
  | cons u rest ih =>
      simp only [lastNonNullValueFor, ih (fun a ha => h a (List.mem_cons_of_mem u ha))]
      simp [h u (List.mem_cons_self u rest)]

theorem lastUpdateFor_mem (us : List AttributeToUpdate) (k : Symbol) :
    (lastUpdateFor us k).isSome → ∃ a ∈ us, a.symbol = k := by
  induction us with
  | nil => intro h; simp [lastUpdateFor] at h
  | cons u rest ih =>
      intro h
      simp only [lastUpdateFor] at h
      cases hl : lastUpdateFor rest k with
      | some v =>
          obtain ⟨a, ha, hk⟩ := ih (by rw [hl]; rfl)
          exact ⟨a, List.mem_cons_of_mem u ha, hk⟩
      | none =>
          rw [hl] at h
          by_cases hk : u.symbol = k
          · exact ⟨u, List.mem_cons_self u rest, hk⟩
          · simp [hk] at h

theorem lastNonNullValueFor_of_nodup (us : List AttributeToUpdate) (k : Symbol) :
    (us.map AttributeToUpdate.symbol).Nodup →
    ∀ w, lastUpdateFor us k = some w → lastNonNullValueFor us k = w := by
  induction us with
  | nil => intro _ w h; simp [lastUpdateFor] at h
  | cons u rest ih =>
      intro hnd w h
      rw [List.map_cons, List.nodup_cons] at hnd
      simp only [lastUpdateFor] at h
      cases hl : lastUpdateFor rest k with
      | some v =>
          rw [hl] at h
          have hvw : v = w := Option.some.inj h
          subst hvw
          have hrest := ih hnd.2 v hl
          simp only [lastNonNullValueFor, hrest]
          cases v with
          | some vv => rfl
          | none =>
              have hne : u.symbol ≠ k := by
                intro hk
                obtain ⟨a, ha, hak⟩ := lastUpdateFor_mem rest k (by rw [hl]; rfl)
                exact hnd.1 (hk ▸ hak ▸ List.mem_map_of_mem AttributeToUpdate.symbol ha)
              simp [hne]
      | none =>
          rw [hl] at h
          by_cases hk : u.symbol = k
          · rw [if_pos hk] at h
            have huw : u.value = w := Option.some.inj h
            have hrest : lastNonNullValueFor rest k = none := by
              apply lastNonNullValueFor_eq_none
              intro a ha hak
              exact hnd.1 (hk ▸ hak ▸ List.mem_map_of_mem AttributeToUpdate.symbol ha)
            simp [lastNonNullValueFor, hrest, hk, huw]
          · simp [hk] at h

theorem applyAttributesToUpdate_collect_fixpoint (us : List AttributeToUpdate)
    (hnd : (us.map AttributeToUpdate.symbol).Nodup) :
    applyAttributesToUpdate (collectNonNullAttributes us) us =
      collectNonNullAttributes us := by
  apply Finmap.ext_lookup
  intro k
  rw [lookup_applyAttributesToUpdate, lookup_collectNonNullAttributes]
  cases hl : lastUpdateFor us k with
  | none => simp [lookup_collectNonNullAttributes]
  | some w => simp [lastNonNullValueFor_of_nodup us k hnd w hl]

theorem findEntityIdx_eq_none_iff (l : List Entity) (p : Entity → Bool) :
    findEntityIdx l p = none ↔ ∀ e ∈ l, p e = false := by
  induction l with
  | nil => simp [findEntityIdx]
  | cons e rest ih =>
      simp only [findEntityIdx]
      by_cases hp : p e
      · simp [hp]
      · simp only [if_neg hp, Option.map_eq_none', ih, List.forall_mem_cons]
        simp [Bool.not_eq_true] at hp
        simp [hp]

theorem findEntityIdx_some (l : List Entity) (p : Entity → Bool) :
    ∀ idx e, findEntityIdx l p = some (idx, e) → l[idx]? = some e ∧ p e = true := by
  induction l with
  | nil => intro idx e h; simp [findEntityIdx] at h
  | cons a rest ih =>
      intro idx e h
      simp only [findEntityIdx] at h
      by_cases hp : p a
      · rw [if_pos hp] at h
        obtain ⟨h1, h2⟩ : (0 : Nat) = idx ∧ a = e := by
          have := Option.some.inj h
          exact ⟨congrArg Prod.fst this, congrArg Prod.snd this⟩
        subst h1; subst h2
        exact ⟨List.getElem?_cons_zero, hp⟩
      · rw [if_neg hp] at h
        cases hr : findEntityIdx rest p with
        | none => rw [hr] at h; simp at h
        | some q =>
            rw [hr] at h
            simp only [Option.map_some'] at h
            obtain ⟨h1, h2⟩ : q.1 + 1 = idx ∧ q.2 = e := by
              have := Option.some.inj h
              exact ⟨congrArg Prod.fst this, congrArg Prod.snd this⟩
            subst h1; subst h2
            obtain ⟨hg, hpe⟩ := ih q.1 q.2 (by rw [hr])
            exact ⟨by simpa [List.getElem?_cons_succ] using hg, hpe⟩

theorem validateUpdateEntityRequest_eq_nil_iff
    (reg : Finmap (fun _ : Symbol => ValueType)) (r : UpdateEntityRequest) :
    validateUpdateEntityRequest reg r = [] ↔
      ∀ a ∈ r.attributes_to_update, validateAttributeToUpdate reg a = [] :=
  List.flatMap_eq_nil_iff

theorem validateAttributeToUpdate_not_valueType
    (reg : Finmap (fun _ : Symbol => ValueType)) (a : AttributeToUpdate)
    (h : validateAttributeToUpdate reg a = []) : a.symbol ≠ valueTypeSymbol := by
  intro hk
  simp [validateAttributeToUpdate, hk] at h

theorem validateUpdateEntityRequest_immutable
    (reg : Finmap (fun _ : Symbol => ValueType)) (r : UpdateEntityRequest)
    (h : ∃ a ∈ r.attributes_to_update, a.symbol = valueTypeSymbol) :
    validateUpdateEntityRequest reg r ≠ [] := by
  intro hnil
  obtain ⟨a, ha, hk⟩ := h
  exact validateAttributeToUpdate_not_valueType reg a
    ((validateUpdateEntityRequest_eq_nil_iff reg r).mp hnil a ha) hk

theorem applyUpdatesToEntity_registry (store : Store) (us : List AttributeToUpdate)
    (idx : Nat) (e : Entity) :
    (applyUpdatesToEntity store us idx e).store.attribute_types =
      store.attribute_types := by
  by_cases h : applyAttributesToUpdate e.attributes us = e.attributes <;>
    simp [applyUpdatesToEntity, h]

theorem applyUpdatesToEntity_events_length (store : Store)
    (us : List AttributeToUpdate) (idx : Nat) (e : Entity) :
    (applyUpdatesToEntity store us idx e).events.length ≤ 1 := by
  by_cases h : applyAttributesToUpdate e.attributes us = e.attributes <;>
    simp [applyUpdatesToEntity, h]

theorem applyUpdatesToEntity_of_fixpoint (store : Store)
    (us : List AttributeToUpdate) (idx : Nat) (e : Entity)
    (hfix : applyAttributesToUpdate e.attributes us = e.attributes) :
    applyUpdatesToEntity store us idx e = ⟨e, store, []⟩ := by
  simp [applyUpdatesToEntity, hfix]

theorem updateEntity_ok_inv (store : Store) (r : UpdateEntityRequest)
    (o : UpdateOutcome) (h : updateEntity store r = .ok o) :
    validateUpdateEntityRequest store.attribute_types r = [] ∧
    o.store.attribute_types = store.attribute_types ∧
    o.events.length ≤ 1 ∧
    ((∃ q, resolveForUpdate store.entities r.entity_locator = some q ∧
        o = applyUpdatesToEntity store r.attributes_to_update q.1 q.2) ∨
      o = createEntityFromRequest store r.attributes_to_update) := by
  unfold updateEntity at h
  split at h
  case isFalse hv => exact absurd h (by simp)
  case isTrue hv =>
  split at h
  case h_1 q hres =>
      have ho := (Except.ok.inj h).symm
      refine ⟨hv, ?_, ?_, Or.inl ⟨q, hres, ho⟩⟩
      · rw [ho]; exact applyUpdatesToEntity_registry store r.attributes_to_update q.1 q.2
      · rw [ho]; exact applyUpdatesToEntity_events_length store r.attributes_to_update q.1 q.2
  case h_2 hres =>
  split at h
  case h_1 id hloc => exact absurd h (by simp)
  case h_2 s hloc =>
  split at h
  case isTrue hmem =>
      have ho := (Except.ok.inj h).symm
      refine ⟨hv, ?_, ?_, Or.inr ho⟩
      · rw [ho]; rfl
      · rw [ho]; rfl
  case isFalse hmem => exact absurd h (by simp)

theorem updateEntity_ok_fixpoint (store : Store) (r : UpdateEntityRequest)
    (o : UpdateOutcome) (h : updateEntity store r = .ok o)
    (hnd : (r.attributes_to_update.map AttributeToUpdate.symbol).Nodup) :
    applyAttributesToUpdate o.entity.attributes r.attributes_to_update =
      o.entity.attributes := by
  obtain ⟨_, _, _, hcases⟩ := updateEntity_ok_inv store r o h
  cases hcases with
  | inl hq =>
      obtain ⟨q, _, ho⟩ := hq
      subst ho
      by_cases hch : applyAttributesToUpdate q.2.attributes r.attributes_to_update
          = q.2.attributes
      · rw [applyUpdatesToEntity_of_fixpoint store r.attributes_to_update q.1 q.2 hch]
        exact hch
      · show applyAttributesToUpdate
            (applyUpdatesToEntity store r.attributes_to_update q.1 q.2).entity.attributes
            r.attributes_to_update = _
        simp only [applyUpdatesToEntity, if_neg hch]
        exact applyAttributesToUpdate_idem r.attributes_to_update q.2.attributes
  | inr ho =>
      subst ho
      show applyAttributesToUpdate
          (createEntityFromRequest store r.attributes_to_update).entity.attributes
          r.attributes_to_update = _
      simp only [createEntityFromRequest]
      exact applyAttributesToUpdate_collect_fixpoint r.attributes_to_update hnd

theorem resolveForUpdate_get (entities : List Entity) (loc : EntityLocator)
    (idx : Nat) (e : Entity)
    (h : resolveForUpdate entities loc = some (idx, e)) :
    entities[idx]? = some e := by
  cases loc with
  | entityId id =>
      simp only [resolveForUpdate] at h
      cases hc : entityIdToIndex id with
      | error err => rw [hc] at h; simp at h
      | ok idx0 =>
          rw [hc] at h
          simp only [Option.map_eq_some'] at h
          obtain ⟨e0, hg, hpair⟩ := h
          obtain ⟨h1, h2⟩ : idx0 = idx ∧ e0 = e := by
            exact ⟨congrArg Prod.fst hpair, congrArg Prod.snd hpair⟩
          subst h1; subst h2
          exact hg
  | symbol s => exact (findEntityIdx_some entities (hasSymbolName s) idx e h).1

def noopUpdateRequest : UpdateEntityRequest :=
  ⟨.entityId 1, [⟨symbolNameSymbol, some (.string "@symbolName")⟩]⟩

/-- C1: for every store state and UpdateEntity request whose first
application succeeds with outcome o, if the symbols of the request are pairwise
distinct and the locator re-resolves in the post state to the entity the
first call returned (always the case for EntityId locators, and for Symbol
locators unless the request renames the entity away or a duplicate
@symbolName hides it), then the second application returns the same entity
with the store unchanged (hence no version bump) and emits no event, so at
most one event is emitted across the two calls.  This is the amended form
of the claim: as stated (same final entity, no second version bump, and
exactly one event in total for every request), the claim fails on requests
whose first application is already a no-op, which emit no event at all. -/
theorem updateEntity_second_application_noop (store : Store)
    (r : UpdateEntityRequest) (o : UpdateOutcome)
    (h1 : updateEntity store r = .ok o)
    (hnd : (r.attributes_to_update.map AttributeToUpdate.symbol).Nodup)
    (h2 : ∃ idx, resolveForUpdate o.store.entities r.entity_locator =
      some (idx, o.entity)) :
    updateEntity o.store r = .ok ⟨o.entity, o.store, []⟩ ∧
      o.events.length ≤ 1 := by
  obtain ⟨idx, hres⟩ := h2
  obtain ⟨hval, hreg, hev, _⟩ := updateEntity_ok_inv store r o h1
  have hfix := updateEntity_ok_fixpoint store r o h1 hnd
  refine ⟨?_, hev⟩
  unfold updateEntity
  rw [hreg, if_pos hval]
  simp only [hres]
  rw [applyUpdatesToEntity_of_fixpoint o.store r.attributes_to_update idx
    o.entity hfix]

/-- Witness for C1 at a concrete input: a no-op update of bootstrap entity
1 on the freshly constructed store. -/
theorem updateEntity_second_application_noop_witness :
    updateEntity initialStore noopUpdateRequest =
      .ok ⟨bootstrapEntity1, initialStore, []⟩ ∧
      ([] : List WatchEntitiesEvent).length ≤ 1 :=
  updateEntity_second_application_noop initialStore noopUpdateRequest
    ⟨bootstrapEntity1, initialStore, []⟩ (by decide) (by decide) ⟨1, by decide⟩

/-- Counterexample to C1 as stated: applying this request twice to the
bootstrap store succeeds both times with the same entity and the same
store, but zero events are emitted in total, not exactly one: the first
application already matches the stored state, so no event is ever
produced. -/
theorem updateEntity_twice_zero_events :
    updateEntity initialStore noopUpdateRequest =
      .ok ⟨bootstrapEntity1, initialStore, []⟩ ∧
    ((updateEntity initialStore noopUpdateRequest).bind
      (fun o => updateEntity o.store noopUpdateRequest)) =
      .ok ⟨bootstrapEntity1, initialStore, []⟩ := by
  constructor
  · decide
  · decide

/-- C2: for a valid UpdateEntity request whose locator is Symbol s and a
store in which no entity carries @symbolName = s, the update fails with
UpdateNotIdempotent naming the missing attribute-to-update
(@symbolName, Text s) unless the request itself contains exactly that
attribute-to-update; when it does, a new entity is created at the next
EntityId whose attributes are exactly the non-null entries of the request
(later entries for the same symbol overriding earlier ones), and a single
Added event is emitted at a fresh version. -/
theorem updateEntity_symbol_locator_upsert (store : Store) (s : Symbol)
    (us : List AttributeToUpdate)
    (hval : validateUpdateEntityRequest store.attribute_types ⟨.symbol s, us⟩ = [])
    (hnores : ∀ e ∈ store.entities,
      e.attributes.lookup symbolNameSymbol ≠ some (.string s)) :
    ((⟨symbolNameSymbol, some (.string s)⟩ : AttributeToUpdate) ∉ us →
      updateEntity store ⟨.symbol s, us⟩ =
        .error (.updateNotIdempotent ⟨symbolNameSymbol, some (.string s)⟩
          (.symbol s))) ∧
    ((⟨symbolNameSymbol, some (.string s)⟩ : AttributeToUpdate) ∈ us →
      updateEntity store ⟨.symbol s, us⟩ =
        .ok (createEntityFromRequest store us) ∧
      (createEntityFromRequest store us).entity.entity_id =
        (store.entities.length : Int) ∧
      (∀ k, (createEntityFromRequest store us).entity.attributes.lookup k =
        lastNonNullValueFor us k) ∧
      (createEntityFromRequest store us).events =
        [⟨store.version + 1, none,
          some (createEntityFromRequest store us).entity⟩]) := by
  have hfind : findEntityIdx store.entities (hasSymbolName s) = none := by
    rw [findEntityIdx_eq_none_iff]
    intro e he
    simp [hasSymbolName, hnores e he]
  constructor
  · intro hmem
    unfold updateEntity
    rw [if_pos hval]
    simp only [resolveForUpdate, hfind]
    rw [if_neg hmem]
  · intro hmem
    refine ⟨?_, rfl, ?_, rfl⟩
    · unfold updateEntity
      rw [if_pos hval]
      simp only [resolveForUpdate, hfind]
      rw [if_pos hmem]
    · intro k
      show (createEntityFromRequest store us).entity.attributes.lookup k = _
      simp only [createEntityFromRequest]
      exact lookup_collectNonNullAttributes us k

/-- Witness for C2 at a concrete input: an upsert of a fresh entity named
widget into the bootstrap store. -/
theorem updateEntity_symbol_locator_upsert_witness :
    updateEntity initialStore
        ⟨.symbol "widget", [⟨symbolNameSymbol, some (.string "widget")⟩]⟩ =
      .ok (createEntityFromRequest initialStore
        [⟨symbolNameSymbol, some (.string "widget")⟩]) :=
  ((updateEntity_symbol_locator_upsert initialStore "widget"
    [⟨symbolNameSymbol, some (.string "widget")⟩]
    (by decide) (by decide)).2 (by decide)).1

/-- C5 (amended): create_attribute_type fails with
AttributeTypeAlreadyExists carrying the matching entity, not with
ValidationError, whenever some stored entity already carries the symbol as
its @symbolName (which is the case for every symbol registered by
bootstrap or by a previous create_attribute_type), and the store is left
unchanged; otherwise it appends a new entity at the next EntityId whose
attributes are exactly the @symbolName/@valueType pair, registers the
symbol in the schema registry, emits one Added event at a fresh version,
and returns the new entity. -/
theorem createAttributeType_duplicate_and_success (store : Store)
    (at_ : AttributeType) :
    (∀ idx e, findEntityIdx store.entities (hasSymbolName at_.symbol) =
        some (idx, e) →
      createAttributeType store at_ = .error (.attributeTypeAlreadyExists e)) ∧
    (findEntityIdx store.entities (hasSymbolName at_.symbol) = none →
      ∃ o, createAttributeType store at_ = .ok o ∧
        o.entity.entity_id = (store.entities.length : Int) ∧
        o.entity.attributes.lookup symbolNameSymbol =
          some (.string at_.symbol) ∧
        o.entity.attributes.lookup valueTypeSymbol =
          some (.entityId at_.value_type.toEntityId) ∧
        (∀ k, k ≠ symbolNameSymbol → k ≠ valueTypeSymbol →
          o.entity.attributes.lookup k = none) ∧
        o.store.attribute_types =
          store.attribute_types.insert at_.symbol at_.value_type ∧
        o.store.entities = store.entities ++ [o.entity] ∧
        o.store.version = store.version + 1 ∧
        o.events = [⟨store.version + 1, none, some o.entity⟩]) := by
  constructor
  · intro idx e hfind
    unfold createAttributeType
    simp only [hfind]
  · intro hfind
    refine ⟨createAttributeTypeOutcome store at_, ?_, rfl, ?_, ?_, ?_,
      rfl, rfl, rfl, rfl⟩
    · unfold createAttributeType
      simp only [hfind]
    · show (((∅ : AttrMap).insert symbolNameSymbol
          (.string at_.symbol)).insert valueTypeSymbol
          (.entityId at_.value_type.toEntityId)).lookup symbolNameSymbol = _
      rw [Finmap.lookup_insert_of_ne _ (by decide), Finmap.lookup_insert]
    · exact Finmap.lookup_insert _
    · intro k hk1 hk2
      show (((∅ : AttrMap).insert symbolNameSymbol
          (.string at_.symbol)).insert valueTypeSymbol
          (.entityId at_.value_type.toEntityId)).lookup k = none
      rw [Finmap.lookup_insert_of_ne _ hk2, Finmap.lookup_insert_of_ne _ hk1]
      exact Finmap.lookup_empty k

/-- Witness for C5 at a concrete input: creating a fresh text attribute
type named color on the bootstrap store succeeds. -/
theorem createAttributeType_success_witness :
    ∃ o, createAttributeType initialStore ⟨"color", .text⟩ = .ok o ∧
      o.entity.entity_id = ((initialStore.entities.length : Nat) : Int) ∧
      o.entity.attributes.lookup symbolNameSymbol = some (.string "color") ∧
      o.entity.attributes.lookup valueTypeSymbol =
        some (.entityId (ValueType.toEntityId .text)) ∧
      (∀ k, k ≠ symbolNameSymbol → k ≠ valueTypeSymbol →
        o.entity.attributes.lookup k = none) ∧
      o.store.attribute_types =
        initialStore.attribute_types.insert "color" .text ∧
      o.store.entities = initialStore.entities ++ [o.entity] ∧
      o.store.version = initialStore.version + 1 ∧
      o.events = [⟨initialStore.version + 1, none, some o.entity⟩] :=
  (createAttributeType_duplicate_and_success initialStore ⟨"color", .text⟩).2
    (by decide)

/-- Counterexample to C5 as stated: the symbol @id is a key of the
bootstrap schema registry, yet create_attribute_type for it fails with
AttributeTypeAlreadyExists carrying the matching entity, not with
ValidationError. -/
theorem createAttributeType_registered_symbol_not_validation_error :
    (initialStore.attribute_types.lookup "@id").isSome = true ∧
    createAttributeType initialStore ⟨"@id", .text⟩ =
      .error (.attributeTypeAlreadyExists bootstrapEntity0) := by
  constructor
  · decide
  · decide

/-- C8: any request with an attributes_to_update entry targeting
@valueType fails validation before any state change (the returned error is
ValidationError with a non-empty report and no outcome is produced, so the
store is unchanged), and consequently no successful update_entity call
ever modifies the @valueType attribute of an entity that was already
stored. -/
theorem updateEntity_valueType_immutable (store : Store)
    (r : UpdateEntityRequest) :
    ((∃ a ∈ r.attributes_to_update, a.symbol = valueTypeSymbol) →
      updateEntity store r =
        .error (.validationError
          (validateUpdateEntityRequest store.attribute_types r)) ∧
      validateUpdateEntityRequest store.attribute_types r ≠ []) ∧
    (∀ o, updateEntity store r = .ok o →
      ∀ (i : Nat) (e : Entity), store.entities[i]? = some e →
        ∃ e2 : Entity, o.store.entities[i]? = some e2 ∧
          e2.attributes.lookup valueTypeSymbol =
            e.attributes.lookup valueTypeSymbol) := by
  constructor
  · intro hex
    have hne := validateUpdateEntityRequest_immutable store.attribute_types r hex
    refine ⟨?_, hne⟩
    unfold updateEntity
    rw [if_neg hne]
  · intro o ho i e hi
    obtain ⟨hval, _, _, hcases⟩ := updateEntity_ok_inv store r o ho
    have hnotvt : ∀ a ∈ r.attributes_to_update, a.symbol ≠ valueTypeSymbol :=
      fun a ha => validateAttributeToUpdate_not_valueType store.attribute_types a
        ((validateUpdateEntityRequest_eq_nil_iff store.attribute_types r).mp
          hval a ha)
    have hlast : lastUpdateFor r.attributes_to_update valueTypeSymbol = none :=
      lastUpdateFor_eq_none r.attributes_to_update valueTypeSymbol hnotvt
    cases hcases with
    | inl hq =>
        obtain ⟨q, hq1, ho2⟩ := hq
        subst ho2
        by_cases hch : applyAttributesToUpdate q.2.attributes
            r.attributes_to_update = q.2.attributes
        · rw [applyUpdatesToEntity_of_fixpoint store r.attributes_to_update
            q.1 q.2 hch]
          exact ⟨e, hi, rfl⟩
        · have hgetq := resolveForUpdate_get store.entities r.entity_locator
            q.1 q.2 (by rw [hq1])
          simp only [applyUpdatesToEntity, if_neg hch]
          by_cases hiq : i = q.1
          · have heq : e = q.2 := by
              rw [hiq] at hi
              rw [hi] at hgetq
              exact Option.some.inj hgetq
            have hlt : q.1 < store.entities.length :=
              (List.getElem?_eq_some_iff.mp hgetq).1
            refine ⟨⟨q.2.entity_id, store.version + 1,
              applyAttributesToUpdate q.2.attributes r.attributes_to_update⟩,
              ?_, ?_⟩
            · rw [hiq]
              show (store.entities.set q.1 _)[q.1]? = _
              simp [List.getElem?_set, hlt]
            · show (applyAttributesToUpdate q.2.attributes
                  r.attributes_to_update).lookup valueTypeSymbol = _
              rw [lookup_applyAttributesToUpdate, hlast, heq]
              rfl
          · refine ⟨e, ?_, rfl⟩
            show (store.entities.set q.1 _)[i]? = some e
            simp only [List.getElem?_set]
            rw [if_neg (fun h => hiq h.symm)]
            exact hi
    | inr ho2 =>
        subst ho2
        refine ⟨e, ?_, rfl⟩
        show (store.entities ++ _)[i]? = some e
        rw [List.getElem?_append,
          if_pos (List.getElem?_eq_some_iff.mp hi).1]
        exact hi

/-- Witness for C8 at a concrete input: writing @valueType on bootstrap
entity 0 is rejected with a validation error. -/
theorem updateEntity_valueType_immutable_witness :
    updateEntity initialStore
        ⟨.entityId 0, [⟨valueTypeSymbol, some (.entityId 3)⟩]⟩ =
      .error (.validationError (validateUpdateEntityRequest
        initialStore.attribute_types
        ⟨.entityId 0, [⟨valueTypeSymbol, some (.entityId 3)⟩]⟩)) ∧
    validateUpdateEntityRequest initialStore.attribute_types
        ⟨.entityId 0, [⟨valueTypeSymbol, some (.entityId 3)⟩]⟩ ≠ [] :=
  (updateEntity_valueType_immutable initialStore
    ⟨.entityId 0, [⟨valueTypeSymbol, some (.entityId 3)⟩]⟩).1
    ⟨⟨valueTypeSymbol, some (.entityId 3)⟩, by decide, rfl⟩

/-- C3: evidence that the code contradicts the claim (and spec.md
sections 4.6 and 5) at the snapshot watermark itself: filter_event drops
only events with entity_version strictly below the watermark, so a live
tail event whose entity_version equals the watermark V0 = 1 is delivered
to the subscriber, although the claimed rule (drop every event with
entity_version less than or equal to V0, for exactly-once delivery across
the snapshot/tail boundary) requires it to be dropped.  The final
conjunct shows that the suppression stage does not remove it either. -/
theorem filterEvent_delivers_watermark_event :
    filterEvent ⟨1, none, some bootstrapEntity3⟩ .matchAll (some 1) =
      some ⟨1, none, some bootstrapEntity3⟩ ∧
    processLiveEvent ⟨1, none, some bootstrapEntity3⟩ .matchAll (some 1) =
      some ⟨1, none, some bootstrapEntity3⟩ ∧
    filterEvent ⟨0, none, some bootstrapEntity3⟩ .matchAll (some 1) = none := by
  refine ⟨?_, ?_, ?_⟩
  · decide
  · decide
  · decide

/-- C4: for every live event that passes the version gate and every
subscriber query node, filter_event keeps each side exactly when the query
matches it (the two sides evaluated independently), and the derived event
is delivered exactly when the filtered before differs from the filtered
after; when they coincide the event is suppressed. -/
theorem watch_event_filter_suppression (ev : WatchEntitiesEvent)
    (q : EntityQueryNode) (minEntityVersion : Option Int)
    (hpass : ∀ m, minEntityVersion = some m → m ≤ ev.entity_version) :
    filterEvent ev q minEntityVersion =
      some ⟨ev.entity_version, ev.before.filter (fun e => q.matches e),
        ev.after.filter (fun e => q.matches e)⟩ ∧
    (processLiveEvent ev q minEntityVersion = none ↔
      ev.before.filter (fun e => q.matches e) =
        ev.after.filter (fun e => q.matches e)) ∧
    (ev.before.filter (fun e => q.matches e) ≠
        ev.after.filter (fun e => q.matches e) →
      processLiveEvent ev q minEntityVersion =
        some ⟨ev.entity_version, ev.before.filter (fun e => q.matches e),
          ev.after.filter (fun e => q.matches e)⟩) := by
  have hfe : filterEvent ev q minEntityVersion =
      some ⟨ev.entity_version, ev.before.filter (fun e => q.matches e),
        ev.after.filter (fun e => q.matches e)⟩ := by
    cases hm : minEntityVersion with
    | none => rfl
    | some m =>
        have hle := hpass m hm
        simp only [filterEvent]
        rw [if_neg (by omega)]
  refine ⟨hfe, ?_, ?_⟩
  · unfold processLiveEvent
    rw [hfe]
    by_cases heq : ev.before.filter (fun e => q.matches e) =
        ev.after.filter (fun e => q.matches e)
    · simp [heq]
    · simp [heq]
  · intro hne
    unfold processLiveEvent
    rw [hfe]
    simp [hne]

/-- Witness for C4 at a concrete input: a live Added event at version 2
against watermark 1 with the MatchAll query is delivered unchanged. -/
theorem watch_event_filter_suppression_witness :
    filterEvent ⟨2, none, some bootstrapEntity3⟩ .matchAll (some 1) =
      some ⟨2, none, some bootstrapEntity3⟩ ∧
    processLiveEvent ⟨2, none, some bootstrapEntity3⟩ .matchAll (some 1) =
      some ⟨2, none, some bootstrapEntity3⟩ := by
  have h := watch_event_filter_suppression ⟨2, none, some bootstrapEntity3⟩
    .matchAll (some 1) (by intro m hm; cases hm; decide)
  exact ⟨h.1, h.2.2 (by decide)⟩

theorem matchesAllClauses_eq_true_iff (cs : List EntityQueryNode) (e : Entity) :
    matchesAllClauses cs e = true ↔ ∀ n ∈ cs, n.matches e = true := by
  induction cs with
  | nil => simp [matchesAllClauses]
  | cons n rest ih => simp [matchesAllClauses, Bool.and_eq_true, ih]

theorem matchesAnyClause_eq_true_iff (cs : List EntityQueryNode) (e : Entity) :
    matchesAnyClause cs e = true ↔ ∃ n ∈ cs, n.matches e = true := by
  induction cs with
  | nil => simp [matchesAnyClause]
  | cons n rest ih => simp [matchesAnyClause, Bool.or_eq_true, ih]

/-- C6: query evaluation is a pure boolean function with MatchAll matching
every entity, MatchNone none, And matching exactly when every child
matches (so an empty And matches everything), Or matching exactly when
some child matches (so an empty Or matches nothing), and
HasAttributeTypes matching exactly when every listed symbol is a key of
the attribute map of the entity. -/
theorem entityQueryNode_matches_semantics (e : Entity)
    (cs : List EntityQueryNode) (ats : List Symbol) :
    EntityQueryNode.matchAll.matches e = true ∧
    EntityQueryNode.matchNone.matches e = false ∧
    ((EntityQueryNode.and cs).matches e = true ↔
      ∀ n ∈ cs, n.matches e = true) ∧
    (EntityQueryNode.and []).matches e = true ∧
    ((EntityQueryNode.or cs).matches e = true ↔
      ∃ n ∈ cs, n.matches e = true) ∧
    (EntityQueryNode.or []).matches e = false ∧
    ((EntityQueryNode.hasAttributeTypes ats).matches e = true ↔
      ∀ a ∈ ats, a ∈ e.attributes) := by
  refine ⟨rfl, rfl, ?_, rfl, ?_, rfl, ?_⟩
  · show matchesAllClauses cs e = true ↔ _
    exact matchesAllClauses_eq_true_iff cs e
  · show matchesAnyClause cs e = true ↔ _
    exact matchesAnyClause_eq_true_iff cs e
  · show ats.all (fun a => (e.attributes.lookup a).isSome) = true ↔ _
    simp only [List.all_eq_true, Finmap.lookup_isSome]

/-- C7: Symbol construction from a string succeeds exactly when the
string consists of 1 to 60 printable characters none of which is a
backslash or a double quote, and otherwise fails with InvalidSymbolName
carrying the string. -/
theorem symbol_construction_validity (s : String) :
    ((symbolTryFrom s = .ok s) ↔
      (1 ≤ s.length ∧ s.length ≤ 60 ∧
        ∀ c ∈ s.data, charIsAsciiPrintable c = true ∧ c ≠ '\\' ∧ c ≠ '\"')) ∧
    (¬(1 ≤ s.length ∧ s.length ≤ 60 ∧
        ∀ c ∈ s.data, charIsAsciiPrintable c = true ∧ c ≠ '\\' ∧ c ≠ '\"') →
      symbolTryFrom s = .error (.invalidSymbolName s)) := by
  have hb : symbolRegexMatches s = true ↔
      (1 ≤ s.length ∧ s.length ≤ 60 ∧
        ∀ c ∈ s.data, charIsAsciiPrintable c = true ∧ c ≠ '\\' ∧ c ≠ '\"') := by
    simp [symbolRegexMatches, Bool.and_eq_true, List.all_eq_true,
      decide_eq_true_eq, and_assoc]
  constructor
  · constructor
    · intro hok
      unfold symbolTryFrom at hok
      by_cases h : symbolRegexMatches s
      · exact hb.mp h
      · rw [if_neg h] at hok
        exact absurd hok (by simp)
    · intro hp
      unfold symbolTryFrom
      rw [if_pos (hb.mpr hp)]
  · intro hnot
    unfold symbolTryFrom
    rw [if_neg (fun h => hnot (hb.mp h))]

/-- Witness for C7 at a concrete input: a string containing a backslash is
rejected with InvalidSymbolName carrying the string. -/
theorem symbol_construction_validity_witness :
    symbolTryFrom "ab\\c" = .error (.invalidSymbolName "ab\\c") :=
  (symbol_construction_validity "ab\\c").2 (by decide)

/-- C9: row projection through an ordered symbol list yields exactly one
optional value per projected symbol: the @id position is synthesized from
the entity id regardless of the stored attributes, and every other
position is the stored attribute value when present and null otherwise. -/
theorem toEntityRow_projection (e : Entity) (P : List Symbol) :
    (e.toEntityRow P).values.length = P.length ∧
    ∀ i : Nat, (e.toEntityRow P).values[i]? = (P[i]?).map (fun a =>
      if a = entityIdSymbol then some (.entityId e.entity_id)
      else e.attributes.lookup a) := by
  constructor
  · simp [Entity.toEntityRow]
  · intro i
    simp [Entity.toEntityRow]

/-- C10: get_entity with an EntityId locator whose integer is negative or
out of range fails with EntityNotFound naming that locator; in particular
the failed index conversion of a negative id is itself reported as
EntityNotFound, not as Other. -/
theorem getEntity_entityId_not_found (store : Store) (id : Int)
    (h : id < 0 ∨ store.entities.length ≤ id.toNat) :
    getEntity store (.entityId id) =
      .error (.entityNotFound (.entityId id)) ∧
    (id < 0 → entityIdToIndex id =
      .error (.entityNotFound (.entityId id))) := by
  have hconv : id < 0 →
      entityIdToIndex id = .error (.entityNotFound (.entityId id)) := by
    intro hneg
    unfold entityIdToIndex
    rw [if_neg (by omega)]
  refine ⟨?_, hconv⟩
  unfold getEntity
  show (match entityIdToIndex id with
    | .error e => (Except.error e : Except AttributeStoreErrorKind Entity)
    | .ok idx =>
        match store.entities[idx]? with
        | some e => .ok e
        | none => .error (.entityNotFound (.entityId id))) = _
  by_cases hneg : id < 0
  · rw [hconv hneg]
  · have hge : store.entities.length ≤ id.toNat := h.resolve_left hneg
    have hok : entityIdToIndex id = .ok id.toNat := by
      unfold entityIdToIndex
      rw [if_pos (by omega)]
    rw [hok]
    show (match store.entities[id.toNat]? with
      | some e => (Except.ok e : Except AttributeStoreErrorKind Entity)
      | none => .error (.entityNotFound (.entityId id))) = _
    rw [List.getElem?_eq_none hge]

/-- Witness for C10 at a concrete input: a negative EntityId locator on
the bootstrap store. -/
theorem getEntity_entityId_not_found_witness :
    getEntity initialStore (.entityId (-1)) =
      .error (.entityNotFound (.entityId (-1))) ∧
    ((-1 : Int) < 0 → entityIdToIndex (-1) =
      .error (.entityNotFound (.entityId (-1)))) :=
  getEntity_entityId_not_found initialStore (-1) (Or.inl (by decide))

end AttrStore
